import Mathlib

/-!
Shallow embedding of the WASI-NN Piper backend adapter
(`plugins/wasi_nn/wasinn_piper.cpp`) and verification of its
configuration-resolution and lifecycle behaviour.

Modelling conventions:
* C++ `float`/`double` values are modelled as `ℚ`; the file only stores,
  copies and compares them (no arithmetic), so IEEE rounding is irrelevant.
* `std::map<piper::Phoneme, float>` is modelled as an association list with
  first-match lookup; `try_emplace` inserts only when the key is absent.
* simdjson documents are modelled by an inductive `Json` value; the textual
  parser itself is external (simdjson), so functions that parse a string
  receive the parse result as `Option Json` (`none` = malformed text).
* The filesystem is a list of existing paths.
* External piper engine calls (`loadVoice`, `textToWavFile`, `textToAudio`)
  are opaque oracles passed as parameters.
-/

namespace Piper

/-- WASI-NN error codes used by the Piper backend. -/
inductive ErrNo where
  | Success
  | InvalidArgument
  | InvalidEncoding
  deriving DecidableEq, Repr

/-- `SynthesisConfigOutputType` from the backend header: WAV container or raw PCM. -/
inductive SynthesisConfigOutputType where
  | OUTPUT_WAV
  | OUTPUT_RAW
  deriving DecidableEq, Repr

/-- `std::map<piper::Phoneme, float>` modelled as an association list
(codepoint key, seconds value) with first-match lookup. -/
abbrev PhonemeMap := List (Char × ℚ)

/-- First-match option choice, mirroring map lookup fallthrough. -/
def pmOr (a b : Option ℚ) : Option ℚ :=
  match a with
  | some v => some v
  | none => b

/-- `std::map::try_emplace`: insert `(k, v)` only when `k` is absent. -/
def tryEmplace (m : PhonemeMap) (k : Char) (v : ℚ) : PhonemeMap :=
  if (m.lookup k).isSome then m else m ++ [(k, v)]

/-- `map[k] = v` (insert-or-assign), used by the phoneme_silence parser. -/
def insertAssign (m : PhonemeMap) (k : Char) (v : ℚ) : PhonemeMap :=
  if (m.lookup k).isSome then
    m.map (fun p => if p.1 = k then (k, v) else p)
  else m ++ [(k, v)]

/-- Sparse synthesis config (`WASINN::Piper::SynthesisConfig`): every field is
optional; absent means "inherit the current engine value". -/
structure SynthesisConfig where
  OutputType : Option SynthesisConfigOutputType := none
  SpeakerId : Option Int := none
  NoiseScale : Option ℚ := none
  LengthScale : Option ℚ := none
  NoiseW : Option ℚ := none
  SentenceSilenceSeconds : Option ℚ := none
  PhonemeSilenceSeconds : Option PhonemeMap := none
  deriving DecidableEq, Repr

/-- Dense engine-native synthesis config (`piper::SynthesisConfig`, external to
this file): one mutable live instance per loaded voice.  Only the fields this
adapter touches, plus the engine's optional `speakerId`, are modelled; engine
default values are immaterial to the claims. -/
structure PiperSynthesisConfig where
  speakerId : Option Int := none
  noiseScale : ℚ := 667/1000
  lengthScale : ℚ := 1
  noiseW : ℚ := 8/10
  sentenceSilenceSeconds : ℚ := 2/10
  phonemeSilenceSeconds : Option PhonemeMap := none
  deriving DecidableEq, Repr

/-- `updateSynthesisConfig(SynthesisConfig&, piper::SynthesisConfig&, bool)`
(wasinn_piper.cpp lines 229-262): applies the sparse config onto the dense
engine config.  Scalar prosody fields overwrite when present; the phoneme map
is replaced wholesale under force, otherwise adopted when the engine has none
and merged via `try_emplace` when it has one. -/
def updateSynthesisConfig (SC : SynthesisConfig) (PC : PiperSynthesisConfig)
    (ForceOverwritePhonemeSilenceSeconds : Bool) : PiperSynthesisConfig :=
  let PC := (match SC.NoiseScale with
    | some v => { PC with noiseScale := v }
    | none => PC)
  let PC := (match SC.LengthScale with
    | some v => { PC with lengthScale := v }
    | none => PC)
  let PC := (match SC.NoiseW with
    | some v => { PC with noiseW := v }
    | none => PC)
  let PC := (match SC.SentenceSilenceSeconds with
    | some v => { PC with sentenceSilenceSeconds := v }
    | none => PC)
  if ForceOverwritePhonemeSilenceSeconds then
    { PC with phonemeSilenceSeconds := SC.PhonemeSilenceSeconds }
  else
    match SC.PhonemeSilenceSeconds with
    | none => PC
    | some M =>
      match PC.phonemeSilenceSeconds with
      | none => { PC with phonemeSilenceSeconds := some M }
      | some EM =>
        let Merged := M.foldl (fun Acc p => tryEmplace Acc p.1 p.2) EM
        { PC with phonemeSilenceSeconds := some Merged }

/-- The engine-map/incoming-map merge performed in the non-force branch. -/
def mergePhonemes (EM M : PhonemeMap) : PhonemeMap :=
  M.foldl (fun Acc p => tryEmplace Acc p.1 p.2) EM

/-- A parsed JSON document (what a successful simdjson parse yields). -/
inductive Json where
  | null
  | bool (b : Bool)
  | num (q : ℚ)
  | str (s : String)
  | arr (elems : List Json)
  | obj (fields : List (String × Json))

/-- A JSON object: field name to value, first match wins on lookup. -/
abbrev JsonObject := List (String × Json)

/-- simdjson coercion to `std::string_view`. -/
def asString : Json → Option String
  | .str s => some s
  | _ => none

/-- simdjson coercion to `double`: any JSON number. -/
def asDouble : Json → Option ℚ
  | .num q => some q
  | _ => none

/-- simdjson coercion to a 64-bit integer: an integral JSON number. -/
def asInt : Json → Option Int
  | .num q => if q.den = 1 then some q.num else none
  | _ => none

/-- simdjson coercion to `bool`. -/
def asBool : Json → Option Bool
  | .bool b => some b
  | _ => none

/-- simdjson coercion to `simdjson::dom::object`. -/
def asObject : Json → Option JsonObject
  | .obj f => some f
  | _ => none

/-- `getOption(Object, Key, Result)` (lines 26-39): looks up `Key` and coerces
via `as`.  Absent key: `(Success, none)`; present and coercible:
`(Success, some value)`; present but wrong type: `(InvalidArgument, none)`. -/
def getOption {α : Type} (Object : JsonObject) (Key : String)
    (as : Json → Option α) : ErrNo × Option α :=
  match Object.lookup Key with
  | none => (ErrNo.Success, none)
  | some v =>
    match as v with
    | some r => (ErrNo.Success, some r)
    | none => (ErrNo.InvalidArgument, none)

/-- `getOptionalOption` (lines 41-51): wraps `getOption` for optional storage,
assigning only when a value is present and leaving `Result` untouched on
absence; errors propagate. -/
def getOptionalOption {α : Type} (Object : JsonObject) (Key : String)
    (as : Json → Option α) (Result : Option α) : Except ErrNo (Option α) :=
  match getOption Object Key as with
  | (ErrNo.Success, some v) => .ok (some v)
  | (ErrNo.Success, none) => .ok Result
  | (e, _) => .error e

/-- `piper::isSingleCodepoint`: the string is exactly one Unicode codepoint. -/
def isSingleCodepoint (s : String) : Bool :=
  s.length == 1

/-- `piper::getCodepoint`: the first codepoint of the string. -/
def getCodepoint (s : String) : Char :=
  s.toList.headD (Char.ofNat 0)

/-- The `phoneme_silence` entry loop (lines 114-136): each key must be a
single codepoint and each value a number; the target map is lazily created and
filled with `map[phoneme] = seconds`. -/
def parsePhonemeSilenceEntries (SC : SynthesisConfig) :
    List (String × Json) → Except ErrNo SynthesisConfig
  | [] => .ok SC
  | (Key, Value) :: Rest =>
    if ¬ isSingleCodepoint Key then .error ErrNo.InvalidArgument
    else
      match asDouble Value with
      | none => .error ErrNo.InvalidArgument
      | some Seconds =>
        let M := SC.PhonemeSilenceSeconds.getD []
        let M := insertAssign M (getCodepoint Key) Seconds
        parsePhonemeSilenceEntries { SC with PhonemeSilenceSeconds := some M } Rest

/-- `parseSynthesisConfig(SynthesisConfig&, object&, bool)` (lines 53-140):
reads output_type ("wav"/"raw" else InvalidArgument), the speaker field
(key "speaker_id" in JSON-input mode, else "speaker"), the four prosody
scalars, and the phoneme_silence object; any field error aborts. -/
def parseSynthesisConfig (SC : SynthesisConfig) (Object : JsonObject)
    (JsonInput : Bool) : Except ErrNo SynthesisConfig :=
  match getOptionalOption Object "output_type" asString none with
  | .error e => .error e
  | .ok OT =>
    let SC? : Except ErrNo SynthesisConfig :=
      match OT with
      | none => .ok SC
      | some s =>
        if s = "wav" then .ok { SC with OutputType := some .OUTPUT_WAV }
        else if s = "raw" then .ok { SC with OutputType := some .OUTPUT_RAW }
        else .error ErrNo.InvalidArgument
    match SC? with
    | .error e => .error e
    | .ok SC =>
      match (if JsonInput then getOptionalOption Object "speaker_id" asInt SC.SpeakerId
             else getOptionalOption Object "speaker" asInt SC.SpeakerId) with
      | .error e => .error e
      | .ok Sp =>
        let SC := { SC with SpeakerId := Sp }
        match getOptionalOption Object "noise_scale" asDouble SC.NoiseScale with
        | .error e => .error e
        | .ok NS =>
          let SC := { SC with NoiseScale := NS }
          match getOptionalOption Object "length_scale" asDouble SC.LengthScale with
          | .error e => .error e
          | .ok LS =>
            let SC := { SC with LengthScale := LS }
            match getOptionalOption Object "noise_w" asDouble SC.NoiseW with
            | .error e => .error e
            | .ok NW =>
              let SC := { SC with NoiseW := NW }
              match getOptionalOption Object "sentence_silence" asDouble
                  SC.SentenceSilenceSeconds with
              | .error e => .error e
              | .ok SS =>
                let SC := { SC with SentenceSilenceSeconds := SS }
                match getOptionalOption Object "phoneme_silence" asObject none with
                | .error e => .error e
                | .ok none => .ok SC
                | .ok (some Entries) => parsePhonemeSilenceEntries SC Entries

/-- The filesystem visible to existence checks: the list of existing paths. -/
abbrev FileSystem := List String

/-- `std::filesystem::exists`. -/
def fsExists (FS : FileSystem) (p : String) : Bool :=
  FS.contains p

/-- `WASINN::Piper::RunConfig` (declared in the backend header): the one-time
graph-load configuration.  Field defaults follow the spec (`JsonInput` is
false by default; path options start unset). -/
structure RunConfig where
  ModelPath : String := ""
  ModelConfigPath : String := ""
  ESpeakDataPath : Option String := none
  TashkeelModelPath : Option String := none
  JsonInput : Bool := false
  DefaultSynthesisConfig : SynthesisConfig := {}
  deriving DecidableEq, Repr

/-- Tail of `parseRunConfig` (lines 196-226): populate the default synthesis
config, the optional espeak_data and tashkeel_model paths, and the
json_input flag. -/
def parseRunConfigRest (RC : RunConfig) (Object : JsonObject) :
    Except ErrNo RunConfig :=
  match parseSynthesisConfig RC.DefaultSynthesisConfig Object false with
  | .error e => .error e
  | .ok DSC =>
    let RC := { RC with DefaultSynthesisConfig := DSC }
    match getOptionalOption Object "espeak_data" asString none with
    | .error e => .error e
    | .ok EP =>
      let RC := (match EP with
        | some p => { RC with ESpeakDataPath := some p }
        | none => RC)
      match getOptionalOption Object "tashkeel_model" asString none with
      | .error e => .error e
      | .ok TP =>
        let RC := (match TP with
          | some p => { RC with TashkeelModelPath := some p }
          | none => RC)
        match getOption Object "json_input" asBool with
        | (ErrNo.Success, some b) => .ok { RC with JsonInput := b }
        | (ErrNo.Success, none) => .ok RC
        | (e, _) => .error e

/-- `parseRunConfig(RunConfig&, const std::string&)` (lines 142-227).  The
textual simdjson parse is external, so the function receives its result:
`Doc = none` models malformed JSON text. -/
def parseRunConfig (Doc : Option Json) (FS : FileSystem) :
    Except ErrNo RunConfig :=
  match Doc with
  | none => .error ErrNo.InvalidEncoding
  | some D =>
    match asObject D with
    | none => .error ErrNo.InvalidArgument
    | some Object =>
      match getOptionalOption Object "model" asString none with
      | .error e => .error e
      | .ok none => .error ErrNo.InvalidArgument
      | .ok (some ModelPath) =>
        if fsExists FS ModelPath then
          let RC : RunConfig := { ModelPath := ModelPath }
          match getOptionalOption Object "config" asString none with
          | .error e => .error e
          | .ok MCP =>
            let RC := (match MCP with
              | some p => { RC with ModelConfigPath := p }
              | none => { RC with ModelConfigPath := RC.ModelPath ++ ".json" })
            if fsExists FS RC.ModelConfigPath then parseRunConfigRest RC Object
            else .error ErrNo.InvalidArgument
        else .error ErrNo.InvalidArgument

/-- State of an externally loaded `piper::Voice` as consumed by this adapter:
whether the phonemizer needs eSpeak data, the eSpeak voice name, the optional
speaker name-to-id table, and the voice's live engine synthesis config. -/
structure Voice where
  phonemeTypeESpeak : Bool := false
  eSpeakVoice : String := ""
  speakerIdMap : Option (List (String × Int)) := none
  synthesisConfig : PiperSynthesisConfig := {}
  deriving DecidableEq, Repr

/-- `WASINN::Piper::Graph` (backend header): owns the run config and the
loaded voice (which carries the single shared engine synthesis config). -/
structure Graph where
  Config : RunConfig := {}
  Voice : Piper.Voice := {}
  deriving DecidableEq, Repr

/-- `WASINN::Piper::Context` (backend header): back-reference to its graph,
the decoded input line, the per-request override (a `unique_ptr` to an
`optional`, hence the nested `Option`), and the output bytes. -/
structure Context where
  GraphId : Nat := 0
  Line : Option String := none
  JsonInputSynthesisConfig : Option (Option SynthesisConfig) := none
  Output : Option (List UInt8) := none
  deriving DecidableEq, Repr

/-- Modelled from the spec: the host graph storage of
`WASINN::WasiNNEnvironment` (wasinnenv is not under src/).  `newGraph`
allocates a fresh id for a new graph, `deleteGraph` removes that id, and the
stored graphs are what the host can observe. -/
structure Env where
  NNGraph : List (Nat × Graph) := []
  NextId : Nat := 0
  deriving DecidableEq, Repr

/-- Modelled from the spec: allocate a fresh graph id and store `g` there. -/
def Env.newGraph (env : Env) (g : Graph) : Nat × Env :=
  (env.NextId, { NNGraph := env.NNGraph ++ [(env.NextId, g)], NextId := env.NextId + 1 })

/-- Modelled from the spec: delete the graph with the given id. -/
def Env.deleteGraph (env : Env) (id : Nat) : Env :=
  { env with NNGraph := env.NNGraph.filter (fun p => p.1 != id) }

/-- Modelled from the spec: replace the graph stored at `id`. -/
def Env.setGraph (env : Env) (id : Nat) (g : Graph) : Env :=
  { env with NNGraph := env.NNGraph.map (fun p => if p.1 = id then (id, g) else p) }

/-- Modelled from the spec: look up the graph stored at `id`. -/
def Env.getGraph (env : Env) (id : Nat) : Option Graph :=
  env.NNGraph.lookup id

/-- Well-formedness of the host storage: allocated ids are below `NextId`. -/
def Env.wf (env : Env) : Prop :=
  ∀ p ∈ env.NNGraph, p.1 < env.NextId

/-- Final part of `load` (lines 335-355): apply graph-load defaults onto the
fresh engine config with force=false, copy the resolved engine values back
into the stored default config, and store the ready graph. -/
def loadStore (env1 : Env) (GId : Nat) (RC : RunConfig) (V : Voice) :
    ErrNo × Env × Option Nat :=
  let Engine := updateSynthesisConfig RC.DefaultSynthesisConfig V.synthesisConfig false
  let DSC := { RC.DefaultSynthesisConfig with
    NoiseScale := some Engine.noiseScale
    LengthScale := some Engine.lengthScale
    NoiseW := some Engine.noiseW
    SentenceSilenceSeconds := some Engine.sentenceSilenceSeconds
    PhonemeSilenceSeconds := Engine.phonemeSilenceSeconds }
  let G : Graph := { Config := { RC with DefaultSynthesisConfig := DSC }
                     Voice := { V with synthesisConfig := Engine } }
  (ErrNo.Success, env1.setGraph GId G, some GId)

/-- The Arabic/libtashkeel validation of `load` (lines 316-333): when the
voice is Arabic the tashkeel model path must be supplied and exist, else the
graph is deleted and InvalidArgument returned. -/
def loadTashkeel (env1 : Env) (GId : Nat) (RC : RunConfig) (V : Voice)
    (FS : FileSystem) : ErrNo × Env × Option Nat :=
  if V.eSpeakVoice = "ar" then
    match RC.TashkeelModelPath with
    | none => (ErrNo.InvalidArgument, env1.deleteGraph GId, none)
    | some p =>
      if fsExists FS p then loadStore env1 GId RC V
      else (ErrNo.InvalidArgument, env1.deleteGraph GId, none)
  else loadStore env1 GId RC V

/-- `load` (lines 264-356).  External pieces appear as oracles: `parse` is
the simdjson parse of the builder text, `LoadedVoice` is the voice state
`piper::loadVoice` produces for the configured model. -/
def load (env : Env) (Builders : List String) (parse : String → Option Json)
    (FS : FileSystem) (LoadedVoice : Voice) : ErrNo × Env × Option Nat :=
  if Builders.length ≠ 1 then (ErrNo.InvalidArgument, env, none)
  else
    let GId := (env.newGraph {}).1
    let env1 := (env.newGraph {}).2
    match parseRunConfig (parse (Builders.headD "")) FS with
    | .error e => (e, env1.deleteGraph GId, none)
    | .ok RC =>
      if LoadedVoice.phonemeTypeESpeak then
        match RC.ESpeakDataPath with
        | none => (ErrNo.InvalidArgument, env1.deleteGraph GId, none)
        | some p =>
          if fsExists FS p then loadTashkeel env1 GId RC LoadedVoice FS
          else (ErrNo.InvalidArgument, env1.deleteGraph GId, none)
      else loadTashkeel env1 GId RC LoadedVoice FS

/-- The context-independent JSON-input decoding of `setInput`
(lines 401-434): extract the required `text` string, parse the per-request
override with JsonInput=true, and when it has no speaker id resolve an
optional `speaker` name through the voice's table (an unknown name or a
missing table only logs a warning). -/
def jsonOverride (G : Graph) (Object : JsonObject) :
    Except ErrNo (String × SynthesisConfig) :=
  match (Object.lookup "text").bind asString with
  | none => .error ErrNo.InvalidArgument
  | some Text =>
    match parseSynthesisConfig {} Object true with
    | .error e => .error e
    | .ok JISC =>
      if JISC.SpeakerId.isNone then
        match getOptionalOption Object "speaker" asString none with
        | .error e => .error e
        | .ok none => .ok (Text, JISC)
        | .ok (some Name) =>
          match G.Voice.speakerIdMap with
          | some M =>
            (match M.lookup Name with
             | some SId => .ok (Text, { JISC with SpeakerId := some SId })
             | none => .ok (Text, JISC))
          | none => .ok (Text, JISC)
      else .ok (Text, JISC)

/-- `setInput` (lines 367-443).  `Doc` is the simdjson parse of the tensor
text (`none` = malformed), consulted only in JSON-input mode.  The context is
returned unchanged on every failure path; on success the line (and, in
JSON-input mode, the override) are stored. -/
def setInput (Cxt : Context) (G : Graph) (Index : Nat) (Dimension : List Nat)
    (Bytes : String) (Doc : Option Json) : ErrNo × Context :=
  if Index ≠ 0 then (ErrNo.InvalidArgument, Cxt)
  else if Dimension ≠ [1] then (ErrNo.InvalidArgument, Cxt)
  else
    let Line := Bytes
    if G.Config.JsonInput then
      match Doc with
      | none => (ErrNo.InvalidEncoding, Cxt)
      | some D =>
        match asObject D with
        | none => (ErrNo.InvalidArgument, Cxt)
        | some Object =>
          match jsonOverride G Object with
          | .error e => (e, Cxt)
          | .ok (Text, JISC) =>
            (ErrNo.Success,
             { Cxt with JsonInputSynthesisConfig := some (some JISC)
                        Line := some Text })
    else (ErrNo.Success, { Cxt with Line := some Line })

/-- `getOutput` (lines 445-478).  `OutBuffer` is the caller's buffer content
and `BytesWritten` the out-parameter's current value; both are returned
unchanged on failure.  On success the output is memcpy'd into the buffer
prefix and its size reported. -/
def getOutput (Cxt : Context) (Index : Nat) (OutBuffer : List UInt8)
    (BytesWritten : Nat) : ErrNo × Context × List UInt8 × Nat :=
  if Index ≠ 0 then (ErrNo.InvalidArgument, Cxt, OutBuffer, BytesWritten)
  else
    match Cxt.Output with
    | none => (ErrNo.InvalidArgument, Cxt, OutBuffer, BytesWritten)
    | some Output =>
      if Output.length ≥ 4294967295 then
        (ErrNo.InvalidArgument, Cxt, OutBuffer, BytesWritten)
      else if Output.length > OutBuffer.length then
        (ErrNo.InvalidArgument, Cxt, OutBuffer, BytesWritten)
      else
        (ErrNo.Success, Cxt, Output ++ OutBuffer.drop Output.length, Output.length)

/-- `compute` (lines 480-527).  `synth` is the opaque engine synthesis
(`textToWavFile` / `textToAudio` plus the raw-PCM byte copy), a function of
the effective output type, the input line and the engine config in force at
synthesis time.  On success the output is stored on the context and the
shared engine config is force-restored to the graph's recorded defaults. -/
def compute (Cxt : Context) (G : Graph)
    (synth : SynthesisConfigOutputType → String → PiperSynthesisConfig → List UInt8) :
    ErrNo × Context × Graph :=
  match Cxt.Line with
  | none => (ErrNo.InvalidArgument, Cxt, G)
  | some Line =>
    let OutputType := G.Config.DefaultSynthesisConfig.OutputType.getD .OUTPUT_WAV
    let Step := (match Cxt.JsonInputSynthesisConfig with
      | some (some JISC) =>
        (JISC.OutputType.getD OutputType,
         updateSynthesisConfig JISC G.Voice.synthesisConfig false)
      | _ => (OutputType, G.Voice.synthesisConfig))
    let Output := synth Step.1 Line Step.2
    let Engine2 := updateSynthesisConfig G.Config.DefaultSynthesisConfig Step.2 true
    (ErrNo.Success, { Cxt with Output := some Output },
     { G with Voice := { G.Voice with synthesisConfig := Engine2 } })

/-- Normal form of the phoneme-map component of `updateSynthesisConfig`. -/
def updatedPhonemes (SC : SynthesisConfig) (PC : PiperSynthesisConfig)
    (F : Bool) : Option PhonemeMap :=
  if F then SC.PhonemeSilenceSeconds
  else
    match SC.PhonemeSilenceSeconds with
    | none => PC.phonemeSilenceSeconds
    | some M =>
      match PC.phonemeSilenceSeconds with
      | none => some M
      | some EM => some (mergePhonemes EM M)

/-- The four prosody scalars of a sparse config are all present — the state
`load`'s copy-back step (lines 341-348) establishes for the recorded default
config of every successfully loaded graph. -/
def scalarsPresent (SC : SynthesisConfig) : Bool :=
  SC.NoiseScale.isSome && SC.LengthScale.isSome &&
    SC.NoiseW.isSome && SC.SentenceSilenceSeconds.isSome

/-- Concrete run-config document used by witnesses. -/
def demoDoc : Json :=
  Json.obj [("model", Json.str "m")]

/-- Concrete parse oracle used by witnesses: every builder text parses to
`demoDoc`. -/
def demoParse : String → Option Json :=
  fun _ => some demoDoc

/-- Concrete filesystem used by witnesses. -/
def demoFS : FileSystem :=
  ["m", "m.json"]

/-- Concrete synthesis oracle used by witnesses: one byte per request. -/
def demoSynth : SynthesisConfigOutputType → String → PiperSynthesisConfig → List UInt8 :=
  fun _ _ _ => [0]

/-- Normal form of `updateSynthesisConfig`: the four prosody scalars follow
present-overwrites/absent-inherits, the engine speaker id is never assigned,
and the phoneme map follows `updatedPhonemes`. -/
theorem updateSynthesisConfig_eq (SC : SynthesisConfig) (PC : PiperSynthesisConfig)
    (F : Bool) :
    updateSynthesisConfig SC PC F =
      { speakerId := PC.speakerId
        noiseScale := SC.NoiseScale.getD PC.noiseScale
        lengthScale := SC.LengthScale.getD PC.lengthScale
        noiseW := SC.NoiseW.getD PC.noiseW
        sentenceSilenceSeconds := SC.SentenceSilenceSeconds.getD PC.sentenceSilenceSeconds
        phonemeSilenceSeconds := updatedPhonemes SC PC F } := by
  rcases SC with ⟨ot, sp, ns, ls, nw, ss, ph⟩
  rcases PC with ⟨psp, pns, pls, pnw, pss, pph⟩
  cases ns <;> cases ls <;> cases nw <;> cases ss <;> cases F <;> cases ph <;>
    cases pph <;> rfl

theorem pmOr_none (a : Option ℚ) : pmOr a none = a := by
  cases a <;> rfl

/-- Lookup after appending a single binding: the original list wins. -/
theorem lookup_append_single (l : PhonemeMap) (k1 : Char) (v1 : ℚ) (k : Char) :
    (l ++ [(k1, v1)]).lookup k =
      pmOr (l.lookup k) (if k = k1 then some v1 else none) := by
  induction l with
  | nil =>
    by_cases h : k = k1
    · simp [List.lookup, h, pmOr]
    · have hb : (k == k1) = false := by simp [h]
      simp [List.lookup, h, hb, pmOr]
  | cons p t ih =>
    by_cases h : k = p.1
    · simp [List.lookup, h, pmOr]
    · have hb : (k == p.1) = false := by simp [h]
      simp [List.lookup, hb, ih]

/-- Lookup in the engine map after a `try_emplace`. -/
theorem lookup_tryEmplace (m : PhonemeMap) (k1 : Char) (v1 : ℚ) (k : Char) :
    (tryEmplace m k1 v1).lookup k =
      if (m.lookup k1).isSome then m.lookup k
      else pmOr (m.lookup k) (if k = k1 then some v1 else none) := by
  unfold tryEmplace
  by_cases h : (m.lookup k1).isSome <;> simp [h, lookup_append_single]

/-- The merge loop is first-writer-wins per key: an existing engine entry is
never replaced, and keys the engine lacks take the incoming map's binding. -/
theorem lookup_mergePhonemes (M : PhonemeMap) (EM : PhonemeMap) (k : Char) :
    (mergePhonemes EM M).lookup k = pmOr (EM.lookup k) (M.lookup k) := by
  induction M generalizing EM with
  | nil => simp [mergePhonemes, pmOr_none]
  | cons p M' ih =>
    rcases p with ⟨k1, v1⟩
    have step : mergePhonemes EM ((k1, v1) :: M') = mergePhonemes (tryEmplace EM k1 v1) M' := rfl
    rw [step, ih, lookup_tryEmplace]
    by_cases hc : (EM.lookup k1).isSome
    · rw [if_pos hc]
      by_cases h : k = k1
      · subst h
        rcases hs : EM.lookup k with _ | w
        · rw [hs] at hc; simp at hc
        · simp [List.lookup, pmOr, hs]
      · have hb : (k == k1) = false := by simp [h]
        simp [List.lookup, hb, pmOr]
    · rw [if_neg hc]
      by_cases h : k = k1
      · subst h
        have hn : EM.lookup k = none := by
          rcases hs : EM.lookup k with _ | w
          · rfl
          · rw [hs] at hc; simp at hc
        simp [List.lookup, hn, pmOr]
      · have hb : (k == k1) = false := by simp [h]
        rcases hs : EM.lookup k with _ | w <;>
          simp [List.lookup, hb, pmOr, hs, h]

/-- C1 counterexample: `updateSynthesisConfig` leaves the engine speaker id
at 3 even though the sparse config carries speaker id 7, so a present speaker
id does not overwrite the corresponding engine field as the claim states. -/
theorem c1_counterexample_speaker_not_applied :
    (updateSynthesisConfig { SpeakerId := some 7 } { speakerId := some 3 } false).speakerId
        = some 3 ∧
    ({ SpeakerId := some 7 } : SynthesisConfig).SpeakerId = some 7 ∧
    (some 3 : Option Int) ≠ some 7 :=
  ⟨rfl, rfl, by decide⟩

/-- C1 (amended): for the scalar fields noise scale, length scale, noise_w
and sentence-silence seconds, a present sparse field overwrites the engine
field and an absent one leaves it untouched; the engine's speaker id is never
assigned by `updateSynthesisConfig` (and output type has no engine field —
it is resolved separately in `compute`). -/
theorem c1_scalar_field_update (SC : SynthesisConfig) (PC : PiperSynthesisConfig)
    (F : Bool) :
    (updateSynthesisConfig SC PC F).noiseScale = SC.NoiseScale.getD PC.noiseScale ∧
    (updateSynthesisConfig SC PC F).lengthScale = SC.LengthScale.getD PC.lengthScale ∧
    (updateSynthesisConfig SC PC F).noiseW = SC.NoiseW.getD PC.noiseW ∧
    (updateSynthesisConfig SC PC F).sentenceSilenceSeconds
        = SC.SentenceSilenceSeconds.getD PC.sentenceSilenceSeconds ∧
    (updateSynthesisConfig SC PC F).speakerId = PC.speakerId := by
  rw [updateSynthesisConfig_eq]
  exact ⟨rfl, rfl, rfl, rfl, rfl⟩

/-- C2: phoneme-silence handling of `updateSynthesisConfig`: force mode
replaces the engine map wholesale (including with "no map"); override mode
leaves the engine map untouched when the sparse map is absent, adopts a
present sparse map wholesale when the engine has none, and otherwise merges
per key without replacing existing engine entries; on engine map
(a : 1) and incoming (a : 2, b : 3) merge yields (a : 1, b : 3) while force
yields exactly (a : 2, b : 3). -/
theorem c2_phoneme_silence_modes :
    (∀ SC PC, (updateSynthesisConfig SC PC true).phonemeSilenceSeconds
        = SC.PhonemeSilenceSeconds) ∧
    (∀ SC PC, SC.PhonemeSilenceSeconds = none →
      (updateSynthesisConfig SC PC false).phonemeSilenceSeconds
        = PC.phonemeSilenceSeconds) ∧
    (∀ SC PC M, SC.PhonemeSilenceSeconds = some M →
      PC.phonemeSilenceSeconds = none →
      (updateSynthesisConfig SC PC false).phonemeSilenceSeconds = some M) ∧
    (∀ SC PC M EM, SC.PhonemeSilenceSeconds = some M →
      PC.phonemeSilenceSeconds = some EM →
      (updateSynthesisConfig SC PC false).phonemeSilenceSeconds
          = some (mergePhonemes EM M) ∧
      ∀ k, (mergePhonemes EM M).lookup k = pmOr (EM.lookup k) (M.lookup k)) ∧
    ((updateSynthesisConfig { PhonemeSilenceSeconds := some [('a', 2), ('b', 3)] }
        { phonemeSilenceSeconds := some [('a', 1)] } false).phonemeSilenceSeconds
      = some [('a', 1), ('b', 3)] ∧
     (updateSynthesisConfig { PhonemeSilenceSeconds := some [('a', 2), ('b', 3)] }
        { phonemeSilenceSeconds := some [('a', 1)] } true).phonemeSilenceSeconds
      = some [('a', 2), ('b', 3)]) := by
  refine ⟨?_, ?_, ?_, ?_, by decide, by decide⟩
  · intro SC PC
    rw [updateSynthesisConfig_eq]
    simp [updatedPhonemes]
  · intro SC PC h
    rw [updateSynthesisConfig_eq]
    simp [updatedPhonemes, h]
  · intro SC PC M h hp
    rw [updateSynthesisConfig_eq]
    simp [updatedPhonemes, h, hp]
  · intro SC PC M EM h hp
    rw [updateSynthesisConfig_eq]
    exact ⟨by simp [updatedPhonemes, h, hp], fun k => lookup_mergePhonemes M EM k⟩

/-- C2 witness: the theorem instantiated at the empty sparse and engine
configs, where the sparse phoneme map is absent. -/
theorem c2_phoneme_silence_modes_witness :
    (updateSynthesisConfig {} {} false).phonemeSilenceSeconds
      = ({} : PiperSynthesisConfig).phonemeSilenceSeconds :=
  c2_phoneme_silence_modes.2.1 {} {} rfl

theorem getOutput_index_ne (Cxt : Context) (Index : Nat) (Buf : List UInt8)
    (BW : Nat) (h : Index ≠ 0) :
    getOutput Cxt Index Buf BW = (ErrNo.InvalidArgument, Cxt, Buf, BW) := by
  simp [getOutput, h]

theorem getOutput_no_output (Cxt : Context) (Index : Nat) (Buf : List UInt8)
    (BW : Nat) (h : Cxt.Output = none) :
    getOutput Cxt Index Buf BW = (ErrNo.InvalidArgument, Cxt, Buf, BW) := by
  unfold getOutput
  split
  · rfl
  · rw [h]

theorem getOutput_size_ge_max (Cxt : Context) (Index : Nat) (Buf : List UInt8)
    (BW : Nat) (Out : List UInt8) (hO : Cxt.Output = some Out)
    (hge : Out.length ≥ 4294967295) :
    getOutput Cxt Index Buf BW = (ErrNo.InvalidArgument, Cxt, Buf, BW) := by
  unfold getOutput
  split
  · rfl
  · rw [hO]
    simp only [if_pos hge]

theorem getOutput_buffer_small (Cxt : Context) (Index : Nat) (Buf : List UInt8)
    (BW : Nat) (Out : List UInt8) (hO : Cxt.Output = some Out)
    (hgt : Out.length > Buf.length) :
    getOutput Cxt Index Buf BW = (ErrNo.InvalidArgument, Cxt, Buf, BW) := by
  unfold getOutput
  split
  · rfl
  · rw [hO]
    dsimp only
    rcases Nat.lt_or_ge Out.length 4294967295 with hsmall | hbig
    · rw [if_neg (by omega), if_pos hgt]
    · rw [if_pos hbig]

theorem getOutput_success (Cxt : Context) (Buf : List UInt8) (BW : Nat)
    (Out : List UInt8) (hO : Cxt.Output = some Out)
    (hlt : Out.length < 4294967295) (hle : Out.length ≤ Buf.length) :
    getOutput Cxt 0 Buf BW
      = (ErrNo.Success, Cxt, Out ++ Buf.drop Out.length, Out.length) := by
  unfold getOutput
  rw [if_neg (show ¬ (0 : Nat) ≠ 0 by decide), hO]
  dsimp only
  rw [if_neg (by omega), if_neg (by omega)]

theorem getOutput_ctx_frame (Cxt : Context) (Index : Nat) (Buf : List UInt8)
    (BW : Nat) : (getOutput Cxt Index Buf BW).2.1 = Cxt := by
  unfold getOutput
  repeat' split
  all_goals rfl

/-- C4 counterexample: an output of size exactly 4294967295 (the 32-bit
maximum, which a 32-bit byte count can represent) with an equally large
caller buffer is rejected with InvalidArgument, where the claim demands
success: the code's bound check uses greater-or-equal, not greater. -/
theorem c4_counterexample_max_size_rejected :
    (getOutput { Output := some (List.replicate 4294967295 0) } 0
        (List.replicate 4294967295 0) 0).1 = ErrNo.InvalidArgument ∧
    (List.replicate 4294967295 (0 : UInt8)).length = 4294967295 ∧
    ¬ (4294967295 : Nat) > 4294967295 := by
  refine ⟨?_, List.length_replicate 4294967295 0, by omega⟩
  rw [getOutput_size_ge_max _ _ _ _ (List.replicate 4294967295 0) rfl
    (le_of_eq (List.length_replicate 4294967295 0).symm)]

/-- C4 (amended): getOutput with index 0 fails InvalidArgument — leaving the
caller buffer and byte count untouched — when no output is available, when
the output size S is greater than or equal to 4294967295 (the code rejects S
equal to the 32-bit maximum too, via a greater-or-equal comparison), or when
S exceeds the buffer capacity; when S is strictly below the 32-bit maximum
and fits the buffer it succeeds, copies the full output into the buffer
prefix and reports exactly S. -/
theorem c4_getOutput_error_cases (Cxt : Context) (Index : Nat)
    (Buf : List UInt8) (BW : Nat) :
    (Index ≠ 0 →
      getOutput Cxt Index Buf BW = (ErrNo.InvalidArgument, Cxt, Buf, BW)) ∧
    (Cxt.Output = none →
      getOutput Cxt Index Buf BW = (ErrNo.InvalidArgument, Cxt, Buf, BW)) ∧
    (∀ Out, Cxt.Output = some Out → Out.length ≥ 4294967295 →
      getOutput Cxt Index Buf BW = (ErrNo.InvalidArgument, Cxt, Buf, BW)) ∧
    (∀ Out, Cxt.Output = some Out → Out.length > Buf.length →
      getOutput Cxt Index Buf BW = (ErrNo.InvalidArgument, Cxt, Buf, BW)) ∧
    (∀ Out, Index = 0 → Cxt.Output = some Out → Out.length < 4294967295 →
      Out.length ≤ Buf.length →
      getOutput Cxt Index Buf BW
        = (ErrNo.Success, Cxt, Out ++ Buf.drop Out.length, Out.length)) := by
  refine ⟨fun h => getOutput_index_ne Cxt Index Buf BW h,
    fun h => getOutput_no_output Cxt Index Buf BW h,
    fun Out hO hge => getOutput_size_ge_max Cxt Index Buf BW Out hO hge,
    fun Out hO hgt => getOutput_buffer_small Cxt Index Buf BW Out hO hgt,
    fun Out hi hO hlt hle => ?_⟩
  subst hi
  exact getOutput_success Cxt Buf BW Out hO hlt hle

/-- C4 witness: a three-byte output with a four-byte buffer succeeds,
reporting 3 bytes written. -/
theorem c4_getOutput_error_cases_witness :
    getOutput { Output := some [1, 2, 3] } 0 [0, 0, 0, 0] 0
      = (ErrNo.Success, { Output := some [1, 2, 3] },
         [1, 2, 3] ++ ([0, 0, 0, 0] : List UInt8).drop 3, 3) :=
  (c4_getOutput_error_cases { Output := some [1, 2, 3] } 0 [0, 0, 0, 0] 0).2.2.2.2
    [1, 2, 3] rfl rfl (by decide) (by decide)

/-- C9: getOutput never modifies the context (successful or failing), and two
consecutive getOutput calls on the same context with the same sufficiently
large buffer both succeed with byte-for-byte identical buffer content and
equal reported byte counts. -/
theorem c9_getOutput_preserves_context (Cxt : Context) (Index : Nat)
    (Buf : List UInt8) (BW : Nat) :
    (getOutput Cxt Index Buf BW).2.1 = Cxt ∧
    (∀ Out, Index = 0 → Cxt.Output = some Out → Out.length < 4294967295 →
      Out.length ≤ Buf.length →
      (getOutput Cxt Index Buf BW).1 = ErrNo.Success ∧
      (getOutput (getOutput Cxt Index Buf BW).2.1 Index
          (getOutput Cxt Index Buf BW).2.2.1 (getOutput Cxt Index Buf BW).2.2.2).1
        = ErrNo.Success ∧
      (getOutput (getOutput Cxt Index Buf BW).2.1 Index
          (getOutput Cxt Index Buf BW).2.2.1 (getOutput Cxt Index Buf BW).2.2.2).2.2.1
        = (getOutput Cxt Index Buf BW).2.2.1 ∧
      (getOutput (getOutput Cxt Index Buf BW).2.1 Index
          (getOutput Cxt Index Buf BW).2.2.1 (getOutput Cxt Index Buf BW).2.2.2).2.2.2
        = (getOutput Cxt Index Buf BW).2.2.2) := by
  refine ⟨getOutput_ctx_frame Cxt Index Buf BW, fun Out hi hO hlt hle => ?_⟩
  subst hi
  have h1 := getOutput_success Cxt Buf BW Out hO hlt hle
  have hle2 : Out.length ≤ (Out ++ Buf.drop Out.length).length := by
    rw [List.length_append]
    omega
  have hdrop : (Out ++ Buf.drop Out.length).drop Out.length = Buf.drop Out.length :=
    List.drop_left Out (Buf.drop Out.length)
  have h2 : getOutput Cxt 0 (Out ++ Buf.drop Out.length) Out.length
      = (ErrNo.Success, Cxt, Out ++ Buf.drop Out.length, Out.length) := by
    have h := getOutput_success Cxt (Out ++ Buf.drop Out.length) Out.length Out hO hlt hle2
    rw [hdrop] at h
    exact h
  rw [h1]
  dsimp only
  rw [h2]
  exact ⟨rfl, rfl, rfl, rfl⟩

/-- C9 witness: the frame and double-read property at a concrete context,
output and buffer. -/
theorem c9_getOutput_preserves_context_witness :
    (getOutput { Output := some [5, 6] } 0 [0, 0, 0] 0).2.1
        = ({ Output := some [5, 6] } : Context) ∧
    (getOutput { Output := some [5, 6] } 0 [0, 0, 0] 0).1 = ErrNo.Success :=
  ⟨(c9_getOutput_preserves_context { Output := some [5, 6] } 0 [0, 0, 0] 0).1,
   ((c9_getOutput_preserves_context { Output := some [5, 6] } 0 [0, 0, 0] 0).2
      [5, 6] rfl rfl (by decide) (by decide)).1⟩


theorem getOptionalOption_absent {α : Type} (O : JsonObject) (Key : String)
    (as : Json → Option α) (R : Option α) (h : O.lookup Key = none) :
    getOptionalOption O Key as R = .ok R := by
  simp [getOptionalOption, getOption, h]

theorem getOptionalOption_found {α : Type} (O : JsonObject) (Key : String)
    (as : Json → Option α) (R : Option α) (v : Json) (x : α)
    (h : O.lookup Key = some v) (ha : as v = some x) :
    getOptionalOption O Key as R = .ok (some x) := by
  simp [getOptionalOption, getOption, h, ha]

theorem getOptionalOption_bad {α : Type} (O : JsonObject) (Key : String)
    (as : Json → Option α) (R : Option α) (v : Json)
    (h : O.lookup Key = some v) (ha : as v = none) :
    getOptionalOption O Key as R = .error ErrNo.InvalidArgument := by
  simp [getOptionalOption, getOption, h, ha]

/-- The tail of the run-config parse never changes the model and companion
config paths resolved earlier. -/
theorem parseRunConfigRest_paths (RC : RunConfig) (O : JsonObject)
    (RC2 : RunConfig) (h : parseRunConfigRest RC O = .ok RC2) :
    RC2.ModelPath = RC.ModelPath ∧ RC2.ModelConfigPath = RC.ModelConfigPath := by
  simp only [parseRunConfigRest] at h
  repeat' split at h
  all_goals cases h
  all_goals exact ⟨rfl, rfl⟩

/-- C6: parseRunConfig returns InvalidEncoding on malformed JSON text and
InvalidArgument on a valid but non-object root; InvalidArgument when the
required `model` string is missing or names a nonexistent file; with the
optional `config` field absent the companion-config path is exactly the model
path with ".json" appended; and the resolved companion-config path (supplied
or derived) must exist or InvalidArgument is returned. -/
theorem c6_parseRunConfig_validation (Doc : Option Json) (FS : FileSystem) :
    (Doc = none → parseRunConfig Doc FS = .error ErrNo.InvalidEncoding) ∧
    (∀ j, Doc = some j → asObject j = none →
      parseRunConfig Doc FS = .error ErrNo.InvalidArgument) ∧
    (∀ O, Doc = some (Json.obj O) → O.lookup "model" = none →
      parseRunConfig Doc FS = .error ErrNo.InvalidArgument) ∧
    (∀ O P, Doc = some (Json.obj O) → O.lookup "model" = some (Json.str P) →
      fsExists FS P = false →
      parseRunConfig Doc FS = .error ErrNo.InvalidArgument) ∧
    (∀ O RC, Doc = some (Json.obj O) → O.lookup "config" = none →
      parseRunConfig Doc FS = .ok RC →
      RC.ModelConfigPath = RC.ModelPath ++ ".json") ∧
    (∀ O P, Doc = some (Json.obj O) → O.lookup "model" = some (Json.str P) →
      fsExists FS P = true → O.lookup "config" = none →
      fsExists FS (P ++ ".json") = false →
      parseRunConfig Doc FS = .error ErrNo.InvalidArgument) ∧
    (∀ O P C, Doc = some (Json.obj O) → O.lookup "model" = some (Json.str P) →
      fsExists FS P = true → O.lookup "config" = some (Json.str C) →
      fsExists FS C = false →
      parseRunConfig Doc FS = .error ErrNo.InvalidArgument) := by
  refine ⟨?_, ?_, ?_, ?_, ?_, ?_, ?_⟩
  · intro h
    subst h
    rfl
  · intro j hD hobj
    subst hD
    simp only [parseRunConfig, hobj]
  · intro O hD hm
    subst hD
    simp only [parseRunConfig, asObject,
      getOptionalOption_absent O "model" asString none hm]
  · intro O P hD hm hex
    subst hD
    simp only [parseRunConfig, asObject,
      getOptionalOption_found O "model" asString none (Json.str P) P hm rfl]
    rw [if_neg (by simp [hex])]
  · intro O RC hD hc hok
    subst hD
    simp only [parseRunConfig, asObject] at hok
    rcases hm : getOptionalOption O "model" asString none with e | mp <;>
      rw [hm] at hok
    · cases hok
    · rcases mp with _ | P
      · cases hok
      · dsimp only at hok
        rcases hex : fsExists FS P with _ | _
        · rw [if_neg (by simp [hex])] at hok
          cases hok
        · rw [if_pos hex, getOptionalOption_absent O "config" asString none hc] at hok
          dsimp only at hok
          rcases hex2 : fsExists FS (P ++ ".json") with _ | _
          · rw [if_neg (by simp [hex2])] at hok
            cases hok
          · rw [if_pos hex2] at hok
            have hpaths := parseRunConfigRest_paths _ O RC hok
            rw [hpaths.1, hpaths.2]
  · intro O P hD hm hex hc hex2
    subst hD
    simp only [parseRunConfig, asObject,
      getOptionalOption_found O "model" asString none (Json.str P) P hm rfl,
      getOptionalOption_absent O "config" asString none hc]
    rw [if_pos hex]
    rw [if_neg (by simp [hex2])]
  · intro O P C hD hm hex hc hex2
    subst hD
    simp only [parseRunConfig, asObject,
      getOptionalOption_found O "model" asString none (Json.str P) P hm rfl,
      getOptionalOption_found O "config" asString none (Json.str C) C hc rfl]
    rw [if_pos hex]
    rw [if_neg (by simp [hex2])]

/-- C6 witness: a run config naming an existing model "m" with no `config`
field resolves the companion path to "m.json". -/
theorem c6_parseRunConfig_validation_witness :
    ∃ RC, parseRunConfig (some demoDoc) demoFS = .ok RC ∧
      RC.ModelConfigPath = RC.ModelPath ++ ".json" := by
  refine ⟨{ ModelPath := "m", ModelConfigPath := "m.json" }, rfl, ?_⟩
  exact (c6_parseRunConfig_validation (some demoDoc) demoFS).2.2.2.2.1
    [("model", Json.str "m")] { ModelPath := "m", ModelConfigPath := "m.json" }
    rfl rfl rfl


/-- Every failing `setInput` returns the context unchanged: all error paths
precede the context writes. -/
theorem setInput_failure_frame (Cxt : Context) (G : Graph) (Index : Nat)
    (Dimension : List Nat) (Bytes : String) (Doc : Option Json)
    (e : ErrNo) (Cxt2 : Context)
    (h : setInput Cxt G Index Dimension Bytes Doc = (e, Cxt2))
    (he : e ≠ ErrNo.Success) : Cxt2 = Cxt := by
  simp only [setInput] at h
  repeat' split at h
  all_goals cases h
  all_goals first
    | rfl
    | exact absurd rfl he

/-- JSON-input-mode reduction of `setInput` at index 0 and dimension [1]. -/
theorem setInput_reduce (Cxt : Context) (G : Graph) (Bytes : String)
    (O : JsonObject) (hG : G.Config.JsonInput = true) :
    setInput Cxt G 0 [1] Bytes (some (Json.obj O)) =
      (match jsonOverride G O with
       | .error e => (e, Cxt)
       | .ok TJ =>
         (ErrNo.Success,
          { Cxt with JsonInputSynthesisConfig := some (some TJ.2)
                     Line := some TJ.1 })) := by
  unfold setInput
  rw [if_neg (show ¬ (0 : Nat) ≠ 0 by decide),
    if_neg (show ¬ ([1] : List Nat) ≠ [1] by decide), hG, if_pos rfl]
  dsimp only [asObject]
  rcases h : jsonOverride G O with e | ⟨T, J⟩ <;> rfl

/-- A missing (or non-string) `text` field fails the JSON-input decode. -/
theorem jsonOverride_text_missing (G : Graph) (O : JsonObject)
    (ht : O.lookup "text" = none) :
    jsonOverride G O = .error ErrNo.InvalidArgument := by
  simp only [jsonOverride, ht, Option.none_bind]

/-- C7: setInput fails InvalidArgument on a nonzero index or a tensor
dimension other than [1]; in JSON-input mode it fails InvalidEncoding on
malformed JSON, InvalidArgument on a non-object root and InvalidArgument on a
missing `text` field; and every failing setInput leaves the context,
including any previously stored input line, unchanged. -/
theorem c7_setInput_error_cases (Cxt : Context) (G : Graph) (Index : Nat)
    (Dimension : List Nat) (Bytes : String) (Doc : Option Json) :
    (Index ≠ 0 →
      setInput Cxt G Index Dimension Bytes Doc = (ErrNo.InvalidArgument, Cxt)) ∧
    (Dimension ≠ [1] →
      setInput Cxt G Index Dimension Bytes Doc = (ErrNo.InvalidArgument, Cxt)) ∧
    (G.Config.JsonInput = true → Index = 0 → Dimension = [1] → Doc = none →
      setInput Cxt G Index Dimension Bytes Doc = (ErrNo.InvalidEncoding, Cxt)) ∧
    (∀ j, G.Config.JsonInput = true → Index = 0 → Dimension = [1] →
      Doc = some j → asObject j = none →
      setInput Cxt G Index Dimension Bytes Doc = (ErrNo.InvalidArgument, Cxt)) ∧
    (∀ O, G.Config.JsonInput = true → Index = 0 → Dimension = [1] →
      Doc = some (Json.obj O) → O.lookup "text" = none →
      setInput Cxt G Index Dimension Bytes Doc = (ErrNo.InvalidArgument, Cxt)) ∧
    (∀ e Cxt2, setInput Cxt G Index Dimension Bytes Doc = (e, Cxt2) →
      e ≠ ErrNo.Success → Cxt2.Line = Cxt.Line ∧ Cxt2 = Cxt) := by
  refine ⟨?_, ?_, ?_, ?_, ?_, ?_⟩
  · intro h
    unfold setInput
    rw [if_pos h]
  · intro h
    unfold setInput
    by_cases hi : Index ≠ 0
    · rw [if_pos hi]
    · rw [if_neg hi, if_pos h]
  · intro hG hi hd hD
    subst hi hd hD
    unfold setInput
    rw [if_neg (show ¬ (0 : Nat) ≠ 0 by decide),
      if_neg (show ¬ ([1] : List Nat) ≠ [1] by decide), hG, if_pos rfl]
  · intro j hG hi hd hD hobj
    subst hi hd hD
    unfold setInput
    rw [if_neg (show ¬ (0 : Nat) ≠ 0 by decide),
      if_neg (show ¬ ([1] : List Nat) ≠ [1] by decide), hG, if_pos rfl]
    simp only [hobj]
  · intro O hG hi hd hD ht
    subst hi hd hD
    rw [setInput_reduce Cxt G Bytes O hG, jsonOverride_text_missing G O ht]
  · intro e Cxt2 h he
    have := setInput_failure_frame Cxt G Index Dimension Bytes Doc e Cxt2 h he
    exact ⟨by rw [this], this⟩

/-- C7 witness: index 1 fails InvalidArgument and leaves a previously stored
line untouched. -/
theorem c7_setInput_error_cases_witness :
    setInput { Line := some "old" } {} 1 [1] "x" none
      = (ErrNo.InvalidArgument, { Line := some "old" }) :=
  (c7_setInput_error_cases { Line := some "old" } {} 1 [1] "x" none).1
    (by decide)

/-- C8: in JSON-input mode, when the parsed override has no speaker id and a
`speaker` name field is present, setInput resolves the name through the
voice's table: the stored override's speaker id is exactly the table lookup
(set for a known name, unset for an unknown name or a missing table), and
setInput returns Success either way. -/
theorem c8_speaker_name_resolution (Cxt : Context) (G : Graph) (Bytes : String)
    (O : JsonObject) (T Name : String) (JISC : SynthesisConfig)
    (hG : G.Config.JsonInput = true)
    (ht : O.lookup "text" = some (Json.str T))
    (hps : parseSynthesisConfig {} O true = .ok JISC)
    (hsp : JISC.SpeakerId = none)
    (hspk : O.lookup "speaker" = some (Json.str Name)) :
    (setInput Cxt G 0 [1] Bytes (some (Json.obj O))).1 = ErrNo.Success ∧
    ∃ JISC2,
      (setInput Cxt G 0 [1] Bytes (some (Json.obj O))).2.JsonInputSynthesisConfig
        = some (some JISC2) ∧
      JISC2.SpeakerId = G.Voice.speakerIdMap.bind (fun M => M.lookup Name) ∧
      (setInput Cxt G 0 [1] Bytes (some (Json.obj O))).2.Line = some T := by
  have hjo : ∃ JISC2, jsonOverride G O = .ok (T, JISC2) ∧
      JISC2.SpeakerId = G.Voice.speakerIdMap.bind (fun M => M.lookup Name) := by
    simp only [jsonOverride, ht, Option.some_bind, asString]
    rw [hps]
    dsimp only
    rw [hsp]
    rw [show (none : Option Int).isNone = true from rfl, if_pos rfl]
    rw [getOptionalOption_found O "speaker" asString none (Json.str Name) Name
      hspk rfl]
    dsimp only
    rcases hM : G.Voice.speakerIdMap with _ | M
    · exact ⟨JISC, rfl, by rw [hsp]; rfl⟩
    · dsimp only
      rcases hL : M.lookup Name with _ | SId
      · exact ⟨JISC, rfl,
          by rw [hsp]; simp only [Option.some_bind]; rw [hL]⟩
      · exact ⟨{ JISC with SpeakerId := some SId }, rfl,
          by simp only [Option.some_bind]; rw [hL]⟩
  obtain ⟨JISC2, hjo, hsp2⟩ := hjo
  rw [setInput_reduce Cxt G Bytes O hG, hjo]
  exact ⟨rfl, JISC2, rfl, hsp2, rfl⟩

/-- C8 witness: an unknown speaker name ("eve") still succeeds with an unset
speaker, and a known name ("bob") succeeds with the mapped id. -/
theorem c8_speaker_name_resolution_witness :
    (setInput {} { Config := { JsonInput := true }, Voice := { speakerIdMap := some [("bob", 4)] } } 0 [1] "x"
      (some (Json.obj [("text", Json.str "hello"), ("speaker", Json.str "eve")]))).1
      = ErrNo.Success :=
  (c8_speaker_name_resolution {}
    { Config := { JsonInput := true }, Voice := { speakerIdMap := some [("bob", 4)] } } "x"
    [("text", Json.str "hello"), ("speaker", Json.str "eve")] "hello" "eve" {}
    rfl rfl rfl rfl rfl).1

/-- C10: in JSON-input mode the per-request override is committed only after
the whole input decodes: every failing setInput leaves the stored override
unchanged, and a successful decode stores exactly the decoded override
(wholesale, independent of whatever override the context held before). -/
theorem c10_override_commit (Cxt : Context) (G : Graph) (Index : Nat)
    (Dimension : List Nat) (Bytes : String) (Doc : Option Json) :
    (∀ e Cxt2, setInput Cxt G Index Dimension Bytes Doc = (e, Cxt2) →
      e ≠ ErrNo.Success →
      Cxt2.JsonInputSynthesisConfig = Cxt.JsonInputSynthesisConfig) ∧
    (∀ O T JISC, G.Config.JsonInput = true → Index = 0 → Dimension = [1] →
      Doc = some (Json.obj O) → jsonOverride G O = .ok (T, JISC) →
      setInput Cxt G Index Dimension Bytes Doc
        = (ErrNo.Success,
           { Cxt with JsonInputSynthesisConfig := some (some JISC)
                      Line := some T })) := by
  refine ⟨?_, ?_⟩
  · intro e Cxt2 h he
    rw [setInput_failure_frame Cxt G Index Dimension Bytes Doc e Cxt2 h he]
  · intro O T JISC hG hi hd hD hjo
    subst hi hd hD
    rw [setInput_reduce Cxt G Bytes O hG, hjo]

/-- C10 witness: a context holding a previous override gets it wholesale
replaced by the newly decoded (empty-speaker) override on success. -/
theorem c10_override_commit_witness :
    setInput { JsonInputSynthesisConfig := some (some { SpeakerId := some 9 }) }
      { Config := { JsonInput := true } } 0 [1] "x"
      (some (Json.obj [("text", Json.str "hi")]))
      = (ErrNo.Success,
         { JsonInputSynthesisConfig := some (some {}), Line := some "hi" }) :=
  (c10_override_commit
    { JsonInputSynthesisConfig := some (some { SpeakerId := some 9 }) }
    { Config := { JsonInput := true } } 0 [1] "x"
    (some (Json.obj [("text", Json.str "hi")]))).2
    [("text", Json.str "hi")] "hi" {} rfl rfl rfl rfl rfl


/-- Deleting the graph id just allocated by `newGraph` restores the stored
graphs, provided the storage is well-formed (the fresh id is really fresh). -/
theorem newGraph_deleteGraph (env : Env) (g : Graph) (hwf : env.wf) :
    (((env.newGraph g).2).deleteGraph (env.newGraph g).1).NNGraph = env.NNGraph := by
  simp only [Env.newGraph, Env.deleteGraph, List.filter_append]
  have h1 : env.NNGraph.filter (fun p => p.1 != env.NextId) = env.NNGraph := by
    rw [List.filter_eq_self]
    intro p hp
    have hlt := hwf p hp
    simp [Nat.ne_of_lt hlt]
  have h2 : ([(env.NextId, g)].filter (fun p => p.1 != env.NextId))
      = ([] : List (Nat × Graph)) := by
    simp
  rw [h1, h2, List.append_nil]

/-- `loadTashkeel` either reaches the store step or deletes the graph with
InvalidArgument. -/
theorem loadTashkeel_cases (env1 : Env) (GId : Nat) (RC : RunConfig) (V : Voice)
    (FS : FileSystem) :
    loadTashkeel env1 GId RC V FS = loadStore env1 GId RC V ∨
    loadTashkeel env1 GId RC V FS
      = (ErrNo.InvalidArgument, env1.deleteGraph GId, none) := by
  unfold loadTashkeel
  repeat' split
  all_goals first
    | exact Or.inl rfl
    | exact Or.inr rfl

/-- `load` either rejects the builder count leaving the host storage
untouched, or deletes the graph it allocated, or reaches the store step. -/
theorem load_cases (env : Env) (Builders : List String)
    (parse : String → Option Json) (FS : FileSystem) (V : Voice) :
    load env Builders parse FS V = (ErrNo.InvalidArgument, env, none) ∨
    (∃ e, load env Builders parse FS V
      = (e, ((env.newGraph {}).2).deleteGraph (env.newGraph {}).1, none)) ∨
    (∃ RC, load env Builders parse FS V
      = loadStore (env.newGraph {}).2 (env.newGraph {}).1 RC V) := by
  unfold load
  by_cases hb : Builders.length ≠ 1
  · rw [if_pos hb]
    exact Or.inl rfl
  · rw [if_neg hb]
    dsimp only
    rcases hp : parseRunConfig (parse (Builders.headD "")) FS with e | RC
    · exact Or.inr (Or.inl ⟨e, rfl⟩)
    · dsimp only
      by_cases hv : V.phonemeTypeESpeak = true
      · rw [if_pos hv]
        rcases hep : RC.ESpeakDataPath with _ | p
        · exact Or.inr (Or.inl ⟨ErrNo.InvalidArgument, rfl⟩)
        · dsimp only
          by_cases hfe : fsExists FS p = true
          · rw [if_pos hfe]
            rcases loadTashkeel_cases (env.newGraph {}).2 (env.newGraph {}).1
                RC V FS with h | h <;> rw [h]
            · exact Or.inr (Or.inr ⟨RC, rfl⟩)
            · exact Or.inr (Or.inl ⟨ErrNo.InvalidArgument, rfl⟩)
          · rw [if_neg hfe]
            exact Or.inr (Or.inl ⟨ErrNo.InvalidArgument, rfl⟩)
      · rw [if_neg hv]
        rcases loadTashkeel_cases (env.newGraph {}).2 (env.newGraph {}).1
            RC V FS with h | h <;> rw [h]
        · exact Or.inr (Or.inr ⟨RC, rfl⟩)
        · exact Or.inr (Or.inl ⟨ErrNo.InvalidArgument, rfl⟩)

/-- C5: load fails InvalidArgument unless exactly one builder is supplied
(leaving the host storage untouched), and every failing load leaves the
host's stored graphs exactly as before the call: the graph allocated on
entry is deleted again on every post-allocation failure path. -/
theorem c5_load_rollback (env : Env) (Builders : List String)
    (parse : String → Option Json) (FS : FileSystem) (V : Voice)
    (hwf : env.wf) :
    (Builders.length ≠ 1 →
      load env Builders parse FS V = (ErrNo.InvalidArgument, env, none)) ∧
    (∀ e env2 g, load env Builders parse FS V = (e, env2, g) →
      e ≠ ErrNo.Success → env2.NNGraph = env.NNGraph) := by
  constructor
  · intro hb
    unfold load
    rw [if_pos hb]
  · intro e env2 g h he
    rcases load_cases env Builders parse FS V with hc | ⟨e2, hc⟩ | ⟨RC, hc⟩
    · rw [hc] at h
      cases h
      rfl
    · rw [hc] at h
      cases h
      exact newGraph_deleteGraph env {} hwf
    · rw [hc] at h
      simp only [loadStore] at h
      cases h
      exact absurd rfl he

/-- C5 witness: zero builders fail InvalidArgument on the empty well-formed
storage, leaving it unchanged. -/
theorem c5_load_rollback_witness :
    load {} [] demoParse demoFS {} = (ErrNo.InvalidArgument, {}, none) :=
  (c5_load_rollback {} [] demoParse demoFS {}
    (fun p hp => absurd hp (List.not_mem_nil p))).1 (by decide)


/-- Looking up an id in a list that ends with a binding for it succeeds. -/
theorem lookup_append_self_isSome (l : List (Nat × Graph)) (id : Nat)
    (g : Graph) : ((l ++ [(id, g)]).lookup id).isSome = true := by
  induction l with
  | nil => simp [List.lookup]
  | cons p t ih =>
    by_cases h : id = p.1
    · simp [List.lookup, h]
    · have hb : (id == p.1) = false := by simp [h]
      simp [List.lookup, hb, ih]

/-- After replacing every binding of `id`, looking `id` up yields the new
graph (when some binding for `id` exists). -/
theorem lookup_setList (l : List (Nat × Graph)) (id : Nat) (g : Graph)
    (hs : (l.lookup id).isSome = true) :
    ((l.map (fun p => if p.1 = id then (id, g) else p)).lookup id) = some g := by
  induction l with
  | nil => simp [List.lookup] at hs
  | cons p t ih =>
    rcases p with ⟨k, v⟩
    simp only [List.map_cons]
    dsimp only
    by_cases h : k = id
    · rw [if_pos h]
      simp [List.lookup]
    · rw [if_neg h]
      have hb : (id == k) = false := by simp [Ne.symm h]
      simp only [List.lookup, hb] at hs ⊢
      exact ih hs

/-- `setGraph` followed by `getGraph` at an allocated id yields the new graph. -/
theorem getGraph_setGraph (env : Env) (id : Nat) (g : Graph)
    (hs : ((env.NNGraph).lookup id).isSome = true) :
    (env.setGraph id g).getGraph id = some g := by
  unfold Env.setGraph Env.getGraph
  exact lookup_setList env.NNGraph id g hs

/-- The id returned by `newGraph` is bound in the resulting storage. -/
theorem newGraph_lookup_isSome (env : Env) (g : Graph) :
    ((((env.newGraph g).2).NNGraph).lookup (env.newGraph g).1).isSome = true := by
  unfold Env.newGraph
  exact lookup_append_self_isSome env.NNGraph env.NextId g

/-- With all four prosody defaults recorded, the force-restore at the end of
`compute` yields the same engine config whether or not a per-request override
was applied first: the restored state depends only on the recorded defaults
and the pre-existing engine state. -/
theorem restore_indep (D : SynthesisConfig)
    (hd : scalarsPresent D = true) (OV : SynthesisConfig)
    (E : PiperSynthesisConfig) :
    updateSynthesisConfig D (updateSynthesisConfig OV E false) true
      = updateSynthesisConfig D E true := by
  simp only [scalarsPresent, Bool.and_eq_true, Option.isSome_iff_exists] at hd
  obtain ⟨⟨⟨⟨ns, hns⟩, ls, hls⟩, nw, hnw⟩, ss, hss⟩ := hd
  rw [updateSynthesisConfig_eq OV E false, updateSynthesisConfig_eq,
    updateSynthesisConfig_eq]
  simp [updatedPhonemes, hns, hls, hnw, hss]

/-- `compute` on a context with an input line always succeeds and leaves the
engine config force-restored to the graph's recorded defaults. -/
theorem compute_engine_after (Cxt : Context) (G : Graph)
    (synth : SynthesisConfigOutputType → String → PiperSynthesisConfig → List UInt8)
    (Line : String) (hl : Cxt.Line = some Line)
    (hd : scalarsPresent G.Config.DefaultSynthesisConfig = true) :
    (compute Cxt G synth).1 = ErrNo.Success ∧
    (compute Cxt G synth).2.2.Voice.synthesisConfig
      = updateSynthesisConfig G.Config.DefaultSynthesisConfig
          G.Voice.synthesisConfig true := by
  unfold compute
  rw [hl]
  dsimp only
  rcases hov : Cxt.JsonInputSynthesisConfig with _ | oov
  · exact ⟨rfl, rfl⟩
  · rcases oov with _ | JISC
    · exact ⟨rfl, rfl⟩
    · exact ⟨rfl, restore_indep G.Config.DefaultSynthesisConfig hd JISC
        G.Voice.synthesisConfig⟩

/-- C3: a graph produced by a successful load records defaults with all four
prosody scalars present; with such defaults every successful compute ends
with the engine config force-restored to a state depending only on the
recorded defaults and the prior engine state (hence independent of any
per-request override); and a subsequent compute on a fresh context (no
override) synthesizes against exactly that engine state with the graph's
default output type. -/
theorem c3_compute_restores_defaults :
    (∀ env Builders parse FS V e env2 gid,
      load env Builders parse FS V = (e, env2, some gid) →
      ∃ G, Env.getGraph env2 gid = some G ∧
        scalarsPresent G.Config.DefaultSynthesisConfig = true) ∧
    (∀ (G : Graph) (Cxt : Context) synth Line,
      scalarsPresent G.Config.DefaultSynthesisConfig = true →
      Cxt.Line = some Line →
      (compute Cxt G synth).1 = ErrNo.Success ∧
      (compute Cxt G synth).2.2.Voice.synthesisConfig
        = updateSynthesisConfig G.Config.DefaultSynthesisConfig
            G.Voice.synthesisConfig true) ∧
    (∀ (G : Graph) (Cxt2 : Context) synth Line2,
      Cxt2.JsonInputSynthesisConfig = none → Cxt2.Line = some Line2 →
      compute Cxt2 G synth
        = (ErrNo.Success,
           { Cxt2 with Output := some (synth (G.Config.DefaultSynthesisConfig.OutputType.getD .OUTPUT_WAV) Line2 G.Voice.synthesisConfig) },
           { G with Voice := { G.Voice with synthesisConfig := updateSynthesisConfig G.Config.DefaultSynthesisConfig G.Voice.synthesisConfig true } })) := by
  refine ⟨?_, ?_, ?_⟩
  · intro env Builders parse FS V e env2 gid h
    rcases load_cases env Builders parse FS V with hc | ⟨e2, hc⟩ | ⟨RC, hc⟩
    · rw [hc] at h
      cases h
    · rw [hc] at h
      cases h
    · rw [hc] at h
      simp only [loadStore] at h
      cases h
      exact ⟨_, getGraph_setGraph _ _ _ (newGraph_lookup_isSome env {}),
        by simp [scalarsPresent]⟩
  · intro G Cxt synth Line hd hl
    exact compute_engine_after Cxt G synth Line hl hd
  · intro G Cxt2 synth Line2 hov hl
    unfold compute
    rw [hl]
    dsimp only
    rw [hov]

/-- C3 witness: with concrete recorded defaults, a compute carrying a
noise-scale override restores the engine to the same state a compute without
any override does. -/
theorem c3_compute_restores_defaults_witness :
    (compute { Line := some "hi", JsonInputSynthesisConfig := some (some { NoiseScale := some 9 }) }
      { Config := { DefaultSynthesisConfig := { NoiseScale := some 1, LengthScale := some 1, NoiseW := some 1, SentenceSilenceSeconds := some 0 } } }
      demoSynth).1 = ErrNo.Success ∧
    (compute { Line := some "hi", JsonInputSynthesisConfig := some (some { NoiseScale := some 9 }) }
      { Config := { DefaultSynthesisConfig := { NoiseScale := some 1, LengthScale := some 1, NoiseW := some 1, SentenceSilenceSeconds := some 0 } } }
      demoSynth).2.2.Voice.synthesisConfig
      = updateSynthesisConfig
          { NoiseScale := some 1, LengthScale := some 1, NoiseW := some 1, SentenceSilenceSeconds := some 0 }
          {} true :=
  c3_compute_restores_defaults.2.1
    { Config := { DefaultSynthesisConfig := { NoiseScale := some 1, LengthScale := some 1, NoiseW := some 1, SentenceSilenceSeconds := some 0 } } }
    { Line := some "hi", JsonInputSynthesisConfig := some (some { NoiseScale := some 9 }) }
    demoSynth "hi" (by decide) rfl

end Piper
